import Mathlib

/-!
Formal model of the seat-reservation state machine in `src/server.js`.

The server keeps one shared in-memory array `seats` of 50 reservation
records and exposes two route families that both operate on it:

* the `/api/seats/:id/{lock,confirm,release}` handlers, which look a seat
  up by its `id` field, validate the caller identity (`!userId`), and track
  lock age through `lockedAt` together with the `cleanExpiredLocks`
  middleware (registered with `app.use`, so it runs before every request);
* the `/lock/:id`, `/confirm/:id`, `/unlock/:id` handlers and the
  `GET /seats` view, which index the array directly, default a missing or
  empty `user` query parameter to `"anonymous"`, track expiry through an
  absolute `lockExpiresAt` stamp, and arm a cancelable `setTimeout`
  callback (`armSeatExpiry` / `clearSeatTimer`).

JavaScript records are modelled by the `Seat` structure below; a field that
is `undefined` or `null` in the source is `none` here.  (The two are only
distinguishable in `cleanExpiredLocks`, where `now - undefined` is `NaN`
and `now - null` is `now`; the short-circuited status check makes the two
agree on every record the program can build, since `lockedAt` is `null`
only on records whose status is not `"locked"`.)  Times are naturals in
milliseconds; `Nat` truncated subtraction agrees with the JavaScript
comparisons used by the code on the relevant branches.
-/

/-- One reservation record of the shared `seats` array.  Mirrors the
JavaScript objects: `id` is present on the records created at startup and
absent on the records the timer-based handlers write wholesale
(`seats[id] = { status: ... }`); `timeoutId` records the presence of a
pending `setTimeout` handle. -/
structure Seat where
  id : Option Nat := none
  status : String
  lockedBy : Option String := none
  lockedAt : Option Nat := none
  bookedBy : Option String := none
  lockExpiresAt : Option Nat := none
  timeoutId : Option Unit := none
deriving DecidableEq, Repr

/-- Outcome of a request handler, abstracting the HTTP responses of
`src/server.js` into the error taxonomy of the specification:
`ok seat` is a 200 response carrying `data: seat`; `okMsg` is a 200
response carrying only a message; `okAlreadyAvailable` is the 200
"already available" response of `/unlock/:id`; `errCannotLock st` is the
generic 400 `Seat is <st>` failure of `/api/seats/:id/lock`. -/
inductive RegResult where
  | ok (seat : Seat)
  | okMsg
  | okAlreadyAvailable
  | errNotFound
  | errInvalidIdentity
  | errAlreadyBooked
  | errAlreadyLocked
  | errNotLocked
  | errWrongHolder
  | errLockExpired
  | errImmutable
  | errCannotLock (status : String)
deriving DecidableEq, Repr

/-- `const LOCK_EXPIRATION_TIME = 60 * 1000` (src/server.js line 308). -/
def LOCK_EXPIRATION_TIME : Nat := 60 * 1000

/-- Modelled from the spec: the constant `LOCK_TTL` is referenced by the
`/lock/:id` handler and by `armSeatExpiry` but its definition is missing
from the provided sources (the test driver tells the reader to "modify
LOCK_TTL in server.js", so only callers of the definition survive).  The
spec fixes the lock TTL as a uniform configuration value of 60 000 ms
("Confirm within 1 minute"). -/
def LOCK_TTL : Nat := 60 * 1000

/-- The startup table (src/server.js lines 299-305): 50 seats with ids
1..50, all `available`, with `lockedBy`, `lockedAt` and `bookedBy`
initialised to `null`. -/
def initSeats : List Seat :=
  (List.range 50).map fun index =>
    { id := some (index + 1), status := "available", lockedBy := none,
      lockedAt := none, bookedBy := none }

/-- JavaScript truthiness of an optional string request parameter:
`undefined`, `null` and the empty string are falsy. -/
def truthyStr : Option String → Bool
  | none => false
  | some s => s != ""

/-- `String(req.query.user || 'anonymous')` (src/server.js lines 527 and
561): a missing or empty `user` query parameter becomes `"anonymous"`. -/
def queryUser : Option String → String
  | none => "anonymous"
  | some u => if u = "" then "anonymous" else u

/-- The lazy-expiry test `seat.lockExpiresAt && seat.lockExpiresAt <= now`
used by `/lock/:id`, `/confirm/:id` and the timer callback: the stamp must
be truthy (present and nonzero) and at or before the current time. -/
def lockIsExpired (seat : Seat) (now : Nat) : Bool :=
  match seat.lockExpiresAt with
  | none => false
  | some e => e != 0 && decide (e ≤ now)

/-- The staleness test of the `/api` family:
`currentTime - seat.lockedAt > LOCK_EXPIRATION_TIME`.  A record without
`lockedAt` gives `NaN` in the source, which compares false. -/
def lockedAtStale (seat : Seat) (now : Nat) : Bool :=
  match seat.lockedAt with
  | none => false
  | some t => decide (now - t > LOCK_EXPIRATION_TIME)

/-- Per-seat body of the `cleanExpiredLocks` middleware (src/server.js
lines 311-321): a seat that is `locked` and whose `lockedAt` is more than
`LOCK_EXPIRATION_TIME` in the past is reset to `available` with `lockedBy`
and `lockedAt` cleared; every other seat is untouched. -/
def sweepSeat (now : Nat) (seat : Seat) : Seat :=
  if seat.status == "locked" && lockedAtStale seat now then
    { seat with status := "available", lockedBy := none, lockedAt := none }
  else seat

/-- The `cleanExpiredLocks` middleware, registered with `app.use` and hence
run before every request of the file: sweeps every seat of the table. -/
def cleanExpiredLocks (now : Nat) (s : List Seat) : List Seat :=
  s.map (sweepSeat now)

/-- `clearSeatTimer` (src/server.js lines 494-499): cancels a pending
timer, leaving `timeoutId` unset either way. -/
def clearSeatTimer (seat : Seat) : Seat := { seat with timeoutId := none }

/-- State effect of `armSeatExpiry(seatId)` (src/server.js lines 502-512):
clear any previous timer of the seat and record the freshly scheduled
`setTimeout` handle.  (The scheduled callback itself is `expiryCallback`
below.) -/
def armSeatExpiry (s : List Seat) (seatId : Nat) : List Seat :=
  match s[seatId]? with
  | none => s
  | some seat => s.set seatId { clearSeatTimer seat with timeoutId := some () }

/-- The `setTimeout` callback installed by `armSeatExpiry` (src/server.js
lines 505-511): re-read the seat; if it is still `locked` and its
`lockExpiresAt` is truthy and at or before the current time, replace it by
a bare `{ status: 'available' }` record; otherwise do nothing. -/
def expiryCallback (s : List Seat) (seatId : Nat) (now : Nat) : List Seat :=
  match s[seatId]? with
  | none => s
  | some seat =>
    if seat.status == "locked" && lockIsExpired seat now then
      s.set seatId { status := "available" }
    else s

/-- `POST /lock/:id?user=U` (src/server.js lines 525-556): 404 if the index
is out of range; lazily release an expired lock (clearing its timer and
replacing the record by a bare available one); then 409 on `booked`, 423 on
`locked`, and otherwise acquire: write a fresh record with
`lockExpiresAt = now + LOCK_TTL` and arm the expiry timer. -/
def postLock (s : List Seat) (id : Nat) (user : Option String) (now : Nat) :
    RegResult × List Seat :=
  let u := queryUser user
  match s[id]? with
  | none => (.errNotFound, s)
  | some seat =>
    let expired := seat.status == "locked" && lockIsExpired seat now
    let seat1 : Seat := if expired then { status := "available" } else seat
    let s1 := if expired then s.set id ({ status := "available" } : Seat) else s
    if seat1.status == "booked" then (.errAlreadyBooked, s1)
    else if seat1.status == "locked" then (.errAlreadyLocked, s1)
    else
      let s2 := s1.set id { status := "locked", lockedBy := some u,
                            lockExpiresAt := some (now + LOCK_TTL) }
      (.okMsg, armSeatExpiry s2 id)

/-- `POST /confirm/:id?user=U` (src/server.js lines 559-588): 404 out of
range; 400 `NotLocked` if the status is not `locked`; lazy-expiry check
(clear the timer, reset to a bare available record, 408 `LockExpired`);
403 `WrongHolder` if the lock belongs to someone else; otherwise clear the
timer and replace the record by a bare `{ status: 'booked' }`. -/
def postConfirm (s : List Seat) (id : Nat) (user : Option String) (now : Nat) :
    RegResult × List Seat :=
  let u := queryUser user
  match s[id]? with
  | none => (.errNotFound, s)
  | some seat =>
    if seat.status != "locked" then (.errNotLocked, s)
    else if lockIsExpired seat now then
      (.errLockExpired, s.set id ({ status := "available" } : Seat))
    else if seat.lockedBy != some u then (.errWrongHolder, s)
    else (.okMsg, s.set id ({ status := "booked" } : Seat))

/-- `POST /unlock/:id` (src/server.js lines 592-607): 404 out of range;
no-op 200 on `available`; 409 `Immutable` on `booked`; otherwise clear the
timer and reset the record to a bare available one. -/
def postUnlock (s : List Seat) (id : Nat) : RegResult × List Seat :=
  match s[id]? with
  | none => (.errNotFound, s)
  | some seat =>
    if seat.status == "available" then (.okAlreadyAvailable, s)
    else if seat.status == "booked" then (.errImmutable, s)
    else (.okMsg, s.set id ({ status := "available" } : Seat))

/-- `GET /seats` (src/server.js lines 515-522): the minimal public view,
the status of every entry of the table in order. -/
def getSeatsView (s : List Seat) : List String := s.map Seat.status

/-- Core of `POST /api/seats/:id/lock` (src/server.js lines 334-370) after
identity validation: `seats.find(s => s.id === seatId)` scans for the first
record whose `id` field matches; 404 if none; 400 `Seat is <status>` when
it is not `available`; otherwise mutate it in place to a lock held by `u`
with `lockedAt = now`. -/
def apiLockGo (l : List Seat) (sid : Nat) (u : String) (now : Nat) :
    RegResult × List Seat :=
  match l with
  | [] => (.errNotFound, [])
  | seat :: rest =>
    if seat.id == some sid then
      if seat.status != "available" then (.errCannotLock seat.status, seat :: rest)
      else
        let seat1 : Seat :=
          { seat with status := "locked", lockedBy := some u, lockedAt := some now }
        (.ok seat1, seat1 :: rest)
    else
      let p := apiLockGo rest sid u now
      (p.1, seat :: p.2)

/-- `POST /api/seats/:id/lock`: `!userId` fails first, then `apiLockGo`. -/
def apiLock (s : List Seat) (sid : Nat) (userId : Option String) (now : Nat) :
    RegResult × List Seat :=
  match userId with
  | none => (.errInvalidIdentity, s)
  | some u => if u = "" then (.errInvalidIdentity, s) else apiLockGo s sid u now

/-- Core of `POST /api/seats/:id/confirm` (src/server.js lines 373-428)
after identity validation: find by `id`; `NotLocked` if not `locked`;
`WrongHolder` if held by someone else; then the expiry check
`Date.now() - seat.lockedAt > LOCK_EXPIRATION_TIME` resets the seat and
fails; otherwise book it in place, retaining the caller as `bookedBy`. -/
def apiConfirmGo (l : List Seat) (sid : Nat) (u : String) (now : Nat) :
    RegResult × List Seat :=
  match l with
  | [] => (.errNotFound, [])
  | seat :: rest =>
    if seat.id == some sid then
      if seat.status != "locked" then (.errNotLocked, seat :: rest)
      else if seat.lockedBy != some u then (.errWrongHolder, seat :: rest)
      else if lockedAtStale seat now then
        (.errLockExpired,
         { seat with status := "available", lockedBy := none, lockedAt := none } :: rest)
      else
        let seat1 : Seat :=
          { seat with status := "booked", bookedBy := some u, lockedBy := none, lockedAt := none }
        (.ok seat1, seat1 :: rest)
    else
      let p := apiConfirmGo rest sid u now
      (p.1, seat :: p.2)

/-- `POST /api/seats/:id/confirm`: `!userId` fails first. -/
def apiConfirm (s : List Seat) (sid : Nat) (userId : Option String) (now : Nat) :
    RegResult × List Seat :=
  match userId with
  | none => (.errInvalidIdentity, s)
  | some u => if u = "" then (.errInvalidIdentity, s) else apiConfirmGo s sid u now

/-- Core of `POST /api/seats/:id/release` (src/server.js lines 431-474)
after identity validation: find by `id`; `NotLocked` if not `locked`;
`WrongHolder` if held by someone else; otherwise reset the record in place
to `available`, clearing `lockedBy` and `lockedAt`. -/
def apiReleaseGo (l : List Seat) (sid : Nat) (u : String) :
    RegResult × List Seat :=
  match l with
  | [] => (.errNotFound, [])
  | seat :: rest =>
    if seat.id == some sid then
      if seat.status != "locked" then (.errNotLocked, seat :: rest)
      else if seat.lockedBy != some u then (.errWrongHolder, seat :: rest)
      else
        let seat1 : Seat :=
          { seat with status := "available", lockedBy := none, lockedAt := none }
        (.ok seat1, seat1 :: rest)
    else
      let p := apiReleaseGo rest sid u
      (p.1, seat :: p.2)

/-- `POST /api/seats/:id/release`: `!userId` fails first. -/
def apiRelease (s : List Seat) (sid : Nat) (userId : Option String) :
    RegResult × List Seat :=
  match userId with
  | none => (.errInvalidIdentity, s)
  | some u => if u = "" then (.errInvalidIdentity, s) else apiReleaseGo s sid u

/-- Shape invariant of a single reservation record, provable for every
reachable state of the table: the status is one of the three legal strings;
`lockedBy` is present exactly on locked seats; exactly one of the two lock
timestamps (`lockedAt` for `/api` locks, `lockExpiresAt` for timer locks)
is present exactly on locked seats; and records that still carry their
startup `id` field never carry a `lockExpiresAt` (the timer handlers
replace records wholesale, dropping `id`). -/
def SeatOk (r : Seat) : Prop :=
  (r.status = "available" ∨ r.status = "locked" ∨ r.status = "booked") ∧
  (r.lockedBy.isSome ↔ r.status = "locked") ∧
  ((r.lockedAt.isSome ∨ r.lockExpiresAt.isSome) ↔ r.status = "locked") ∧
  ¬(r.lockedAt.isSome ∧ r.lockExpiresAt.isSome) ∧
  (r.id.isSome → r.lockExpiresAt = none)

/-- Every record of the table satisfies `SeatOk`. -/
def TableInv (s : List Seat) : Prop := ∀ r ∈ s, SeatOk r

/-- States of the shared `seats` table reachable from startup.  Every HTTP
request first runs the `cleanExpiredLocks` middleware (the pure
`middleware` step also covers the two GET views, which mutate nothing
else); the timer callback may fire at any time on any index, which
over-approximates the real single-shot schedule. -/
inductive Reachable : List Seat → Prop where
  | init : Reachable initSeats
  | middleware (now : Nat) {s : List Seat} : Reachable s →
      Reachable (cleanExpiredLocks now s)
  | lockStep (id : Nat) (user : Option String) (now : Nat) {s : List Seat} :
      Reachable s → Reachable (postLock (cleanExpiredLocks now s) id user now).2
  | confirmStep (id : Nat) (user : Option String) (now : Nat) {s : List Seat} :
      Reachable s → Reachable (postConfirm (cleanExpiredLocks now s) id user now).2
  | unlockStep (id : Nat) (now : Nat) {s : List Seat} :
      Reachable s → Reachable (postUnlock (cleanExpiredLocks now s) id).2
  | apiLockStep (sid : Nat) (userId : Option String) (now : Nat) {s : List Seat} :
      Reachable s → Reachable (apiLock (cleanExpiredLocks now s) sid userId now).2
  | apiConfirmStep (sid : Nat) (userId : Option String) (now : Nat) {s : List Seat} :
      Reachable s → Reachable (apiConfirm (cleanExpiredLocks now s) sid userId now).2
  | apiReleaseStep (sid : Nat) (userId : Option String) (now : Nat) {s : List Seat} :
      Reachable s → Reachable (apiRelease (cleanExpiredLocks now s) sid userId).2
  | timerFire (id : Nat) (now : Nat) {s : List Seat} :
      Reachable s → Reachable (expiryCallback s id now)

/-- The record a successful `POST /lock/:id` leaves at the seat's index:
the wholesale write `{ status: 'locked', lockedBy: user, lockExpiresAt }`
followed by `armSeatExpiry`, which stores the fresh timer handle. -/
def timerLockRec (u : String) (now : Nat) : Seat :=
  { status := "locked", lockedBy := some u, lockExpiresAt := some (now + LOCK_TTL),
    timeoutId := some () }

/-- Updating one entry with a record that satisfies `SeatOk` preserves the
table invariant. -/
theorem tableInv_set {s : List Seat} {r : Seat} (hs : TableInv s) (hr : SeatOk r)
    (i : Nat) : TableInv (s.set i r) := by
  intro x hx
  rcases List.mem_or_eq_of_mem_set hx with h | h
  · exact hs x h
  · exact h ▸ hr

/-- The bare available record written by the timer handlers is well formed. -/
theorem seatOk_blankAvailable : SeatOk ({ status := "available" } : Seat) := by
  unfold SeatOk; refine ⟨Or.inl rfl, ?_, ?_, ?_, ?_⟩ <;> simp

/-- The bare booked record written by `POST /confirm/:id` is well formed. -/
theorem seatOk_blankBooked : SeatOk ({ status := "booked" } : Seat) := by
  unfold SeatOk; refine ⟨Or.inr (Or.inr rfl), ?_, ?_, ?_, ?_⟩ <;> simp

/-- The fresh lock record written by `POST /lock/:id` is well formed. -/
theorem seatOk_timerLockRec (u : String) (e : Nat) (t : Option Unit) :
    SeatOk { status := "locked", lockedBy := some u, lockExpiresAt := some e,
             timeoutId := t } := by
  unfold SeatOk; refine ⟨Or.inr (Or.inl rfl), ?_, ?_, ?_, ?_⟩ <;> simp

/-- `SeatOk` does not mention the timer handle. -/
theorem seatOk_timeoutId {r : Seat} (h : SeatOk r) (t : Option Unit) :
    SeatOk { r with timeoutId := t } := h

/-- A positive staleness test implies `lockedAt` is present. -/
theorem lockedAtStale_isSome {r : Seat} {now : Nat}
    (h : lockedAtStale r now = true) : r.lockedAt.isSome := by
  unfold lockedAtStale at h
  cases hl : r.lockedAt with
  | none => rw [hl] at h; simp at h
  | some t => simp

/-- The middleware sweep preserves the record invariant. -/
theorem seatOk_sweepSeat (now : Nat) {r : Seat} (h : SeatOk r) :
    SeatOk (sweepSeat now r) := by
  unfold sweepSeat
  split
  · rename_i hc
    simp only [Bool.and_eq_true, beq_iff_eq] at hc
    obtain ⟨h1, h2, h3, h4, h5⟩ := h
    have hat : r.lockedAt.isSome := lockedAtStale_isSome hc.2
    have hexp : r.lockExpiresAt = none := by
      rcases he : r.lockExpiresAt with _ | e
      · rfl
      · exact absurd ⟨hat, by rw [he]; rfl⟩ h4
    refine ⟨Or.inl rfl, by simp, by simp [hexp], by simp [hexp], by simp [hexp]⟩
  · exact h

/-- The middleware preserves the table invariant. -/
theorem tableInv_clean (now : Nat) {s : List Seat} (h : TableInv s) :
    TableInv (cleanExpiredLocks now s) := by
  intro x hx
  rcases List.mem_map.1 hx with ⟨r, hr, rfl⟩
  exact seatOk_sweepSeat now (h r hr)

/-- Arming a timer preserves the table invariant. -/
theorem tableInv_arm {s : List Seat} (h : TableInv s) (i : Nat) :
    TableInv (armSeatExpiry s i) := by
  unfold armSeatExpiry
  split
  · exact h
  · rename_i seat hseat
    exact tableInv_set h (seatOk_timeoutId (h seat (List.getElem?_mem hseat)) _) i

/-- The timer callback preserves the table invariant. -/
theorem tableInv_expiryCallback {s : List Seat} (h : TableInv s) (i now : Nat) :
    TableInv (expiryCallback s i now) := by
  unfold expiryCallback
  split
  · exact h
  · split
    · exact tableInv_set h seatOk_blankAvailable i
    · exact h

/-- `POST /lock/:id` preserves the table invariant. -/
theorem tableInv_postLock {s : List Seat} (h : TableInv s) (id : Nat)
    (user : Option String) (now : Nat) : TableInv (postLock s id user now).2 := by
  unfold postLock
  dsimp only
  split
  · exact h
  · rename_i seat hseat
    by_cases hexp : (seat.status == "locked" && lockIsExpired seat now) = true
    · simp only [hexp, if_true]
      split
      · exact tableInv_set h seatOk_blankAvailable id
      · split
        · exact tableInv_set h seatOk_blankAvailable id
        · exact tableInv_arm
            (tableInv_set (tableInv_set h seatOk_blankAvailable id)
              (seatOk_timerLockRec _ _ _) id) id
    · simp only [Bool.not_eq_true] at hexp
      simp only [hexp, Bool.false_eq_true, if_false]
      split
      · exact h
      · split
        · exact h
        · exact tableInv_arm (tableInv_set h (seatOk_timerLockRec _ _ _) id) id

/-- `POST /confirm/:id` preserves the table invariant. -/
theorem tableInv_postConfirm {s : List Seat} (h : TableInv s) (id : Nat)
    (user : Option String) (now : Nat) : TableInv (postConfirm s id user now).2 := by
  unfold postConfirm
  dsimp only
  split
  · exact h
  · rename_i seat hseat
    split
    · exact h
    · split
      · exact tableInv_set h seatOk_blankAvailable id
      · split
        · exact h
        · exact tableInv_set h seatOk_blankBooked id

/-- `POST /unlock/:id` preserves the table invariant. -/
theorem tableInv_postUnlock {s : List Seat} (h : TableInv s) (id : Nat) :
    TableInv (postUnlock s id).2 := by
  unfold postUnlock
  split
  · exact h
  · rename_i seat hseat
    split
    · exact h
    · split
      · exact h
      · exact tableInv_set h seatOk_blankAvailable id

/-- The in-place lock written by `/api/seats/:id/lock` on an available,
well-formed record is well formed. -/
theorem seatOk_apiLockRec {seat : Seat} (h : SeatOk seat)
    (hav : seat.status = "available") (u : String) (now : Nat) :
    SeatOk { seat with status := "locked", lockedBy := some u, lockedAt := some now } := by
  obtain ⟨h1, h2, h3, h4, h5⟩ := h
  have hexp : seat.lockExpiresAt = none := by
    rcases he : seat.lockExpiresAt with _ | e
    · rfl
    · rw [hav, he] at h3; simp at h3
  refine ⟨Or.inr (Or.inl rfl), by simp, by simp, by simp [hexp], by simp [hexp]⟩

/-- `POST /api/seats/:id/lock` preserves the table invariant. -/
theorem tableInv_apiLockGo (sid : Nat) (u : String) (now : Nat) :
    ∀ l : List Seat, TableInv l → TableInv (apiLockGo l sid u now).2 := by
  intro l
  induction l with
  | nil => intro _ r hr; simp [apiLockGo] at hr
  | cons seat rest ih =>
    intro h
    have hseat := (List.forall_mem_cons.1 h).1
    have hrest := (List.forall_mem_cons.1 h).2
    unfold apiLockGo
    dsimp only
    split
    · split
      · exact h
      · rename_i hid hav
        simp only [bne_iff_ne, ne_eq, not_not] at hav
        intro r hr
        rcases List.mem_cons.1 hr with rfl | hr
        · exact seatOk_apiLockRec hseat hav u now
        · exact hrest r hr
    · intro r hr
      rcases List.mem_cons.1 hr with rfl | hr
      · exact hseat
      · exact ih hrest r hr

/-- The in-place booking written by `/api/seats/:id/confirm` on a locked,
well-formed record with startup `id` is well formed. -/
theorem seatOk_apiBookRec {seat : Seat} (h : SeatOk seat)
    (hid : seat.id.isSome) (u : String) :
    SeatOk { seat with status := "booked", bookedBy := some u, lockedBy := none, lockedAt := none } := by
  obtain ⟨h1, h2, h3, h4, h5⟩ := h
  have hexp : seat.lockExpiresAt = none := h5 hid
  refine ⟨Or.inr (Or.inr rfl), by simp, by simp [hexp], by simp [hexp], by simp [hexp]⟩

/-- The in-place reset written by `/api/seats/:id/{confirm,release}` or the
middleware on a well-formed record with startup `id` is well formed. -/
theorem seatOk_apiResetRec {seat : Seat} (h : SeatOk seat)
    (hid : seat.id.isSome) :
    SeatOk { seat with status := "available", lockedBy := none, lockedAt := none } := by
  obtain ⟨h1, h2, h3, h4, h5⟩ := h
  have hexp : seat.lockExpiresAt = none := h5 hid
  refine ⟨Or.inl rfl, by simp, by simp [hexp], by simp [hexp], by simp [hexp]⟩

/-- `POST /api/seats/:id/confirm` preserves the table invariant. -/
theorem tableInv_apiConfirmGo (sid : Nat) (u : String) (now : Nat) :
    ∀ l : List Seat, TableInv l → TableInv (apiConfirmGo l sid u now).2 := by
  intro l
  induction l with
  | nil => intro _ r hr; simp [apiConfirmGo] at hr
  | cons seat rest ih =>
    intro h
    have hseat := (List.forall_mem_cons.1 h).1
    have hrest := (List.forall_mem_cons.1 h).2
    unfold apiConfirmGo
    dsimp only
    split
    · rename_i hid
      simp only [beq_iff_eq] at hid
      have hids : seat.id.isSome := by rw [hid]; rfl
      split
      · exact h
      · split
        · exact h
        · split
          · intro r hr
            rcases List.mem_cons.1 hr with rfl | hr
            · exact seatOk_apiResetRec hseat hids
            · exact hrest r hr
          · intro r hr
            rcases List.mem_cons.1 hr with rfl | hr
            · exact seatOk_apiBookRec hseat hids u
            · exact hrest r hr
    · intro r hr
      rcases List.mem_cons.1 hr with rfl | hr
      · exact hseat
      · exact ih hrest r hr

/-- `POST /api/seats/:id/release` preserves the table invariant. -/
theorem tableInv_apiReleaseGo (sid : Nat) (u : String) :
    ∀ l : List Seat, TableInv l → TableInv (apiReleaseGo l sid u).2 := by
  intro l
  induction l with
  | nil => intro _ r hr; simp [apiReleaseGo] at hr
  | cons seat rest ih =>
    intro h
    have hseat := (List.forall_mem_cons.1 h).1
    have hrest := (List.forall_mem_cons.1 h).2
    unfold apiReleaseGo
    dsimp only
    split
    · rename_i hid
      simp only [beq_iff_eq] at hid
      have hids : seat.id.isSome := by rw [hid]; rfl
      split
      · exact h
      · split
        · exact h
        · intro r hr
          rcases List.mem_cons.1 hr with rfl | hr
          · exact seatOk_apiResetRec hseat hids
          · exact hrest r hr
    · intro r hr
      rcases List.mem_cons.1 hr with rfl | hr
      · exact hseat
      · exact ih hrest r hr

/-- Identity validation wrappers preserve the table invariant. -/
theorem tableInv_apiLock {s : List Seat} (h : TableInv s) (sid : Nat)
    (userId : Option String) (now : Nat) : TableInv (apiLock s sid userId now).2 := by
  unfold apiLock
  split
  · exact h
  · split
    · exact h
    · exact tableInv_apiLockGo sid _ now s h

/-- Identity validation wrapper of confirm preserves the table invariant. -/
theorem tableInv_apiConfirm {s : List Seat} (h : TableInv s) (sid : Nat)
    (userId : Option String) (now : Nat) : TableInv (apiConfirm s sid userId now).2 := by
  unfold apiConfirm
  split
  · exact h
  · split
    · exact h
    · exact tableInv_apiConfirmGo sid _ now s h

/-- Identity validation wrapper of release preserves the table invariant. -/
theorem tableInv_apiRelease {s : List Seat} (h : TableInv s) (sid : Nat)
    (userId : Option String) : TableInv (apiRelease s sid userId).2 := by
  unfold apiRelease
  split
  · exact h
  · split
    · exact h
    · exact tableInv_apiReleaseGo sid _ s h

/-- The startup table satisfies the invariant. -/
theorem tableInv_init : TableInv initSeats := by
  intro r hr
  rcases List.mem_map.1 hr with ⟨i, _, rfl⟩
  exact ⟨Or.inl rfl, by simp, by simp, by simp, by simp⟩

/-- Every reachable state of the shared table satisfies the invariant. -/
theorem tableInv_reachable {s : List Seat} (h : Reachable s) : TableInv s := by
  induction h with
  | init => exact tableInv_init
  | middleware now _ ih => exact tableInv_clean now ih
  | lockStep id user now _ ih => exact tableInv_postLock (tableInv_clean now ih) id user now
  | confirmStep id user now _ ih => exact tableInv_postConfirm (tableInv_clean now ih) id user now
  | unlockStep id now _ ih => exact tableInv_postUnlock (tableInv_clean now ih) id
  | apiLockStep sid userId now _ ih => exact tableInv_apiLock (tableInv_clean now ih) sid userId now
  | apiConfirmStep sid userId now _ ih => exact tableInv_apiConfirm (tableInv_clean now ih) sid userId now
  | apiReleaseStep sid userId now _ ih => exact tableInv_apiRelease (tableInv_clean now ih) sid userId
  | timerFire id now _ ih => exact tableInv_expiryCallback ih id now

/-- C1 (amended): in every state of the shared seat table reachable from
startup via any sequence of requests (Lock, Confirm, Release, Unlock, the
views, each preceded by the middleware) and timer firings, every record's
status is exactly one of "available", "locked", "booked"; a `lockedBy`
holder is present exactly when the seat is locked; and a lock timestamp
(`lockedAt` for `/api` locks, `lockExpiresAt` for timer locks) is present
exactly when the seat is locked.  The original "holder present iff status
is not Available" fails because `POST /confirm/:id` books a seat by
writing a bare `{ status: 'booked' }` record that drops the holder. -/
theorem c1_reachable_state_invariants {s : List Seat} (h : Reachable s) :
    ∀ r ∈ s, (r.status = "available" ∨ r.status = "locked" ∨ r.status = "booked") ∧
      (r.lockedBy.isSome ↔ r.status = "locked") ∧
      ((r.lockedAt.isSome ∨ r.lockExpiresAt.isSome) ↔ r.status = "locked") := by
  intro r hr
  obtain ⟨h1, h2, h3, -, -⟩ := tableInv_reachable h r hr
  exact ⟨h1, h2, h3⟩

/-- Witness for the C1 theorem: the startup table is reachable and its
first record satisfies the three invariants. -/
theorem c1_reachable_state_invariants_witness :
    (({ id := some 1, status := "available" } : Seat).status = "available" ∨
      ({ id := some 1, status := "available" } : Seat).status = "locked" ∨
      ({ id := some 1, status := "available" } : Seat).status = "booked") ∧
    (({ id := some 1, status := "available" } : Seat).lockedBy.isSome ↔
      ({ id := some 1, status := "available" } : Seat).status = "locked") ∧
    ((({ id := some 1, status := "available" } : Seat).lockedAt.isSome ∨
       ({ id := some 1, status := "available" } : Seat).lockExpiresAt.isSome) ↔
      ({ id := some 1, status := "available" } : Seat).status = "locked") :=
  c1_reachable_state_invariants Reachable.init _ (by decide)

/-- C1 counterexample: the claim as stated is false on the code.  Locking
seat 0 via `POST /lock/0?user=alice` at time 0 and confirming it via
`POST /confirm/0?user=alice` at time 0 reaches a state whose record 0 is
the bare `{ status: 'booked' }`: its status is not "available", yet no
holder identity (`lockedBy` or `bookedBy`) is set, and a Booked record
also never carries the claimed holder. -/
theorem c1_holder_iff_not_available_counterexample :
    ¬ (∀ s : List Seat, Reachable s → ∀ r ∈ s,
        (r.status = "available" ∨ r.status = "locked" ∨ r.status = "booked") ∧
        ((r.lockedBy.isSome ∨ r.bookedBy.isSome) ↔ r.status ≠ "available") ∧
        (r.lockExpiresAt.isSome ↔ r.status = "locked")) := by
  intro hclaim
  have hreach : Reachable (postConfirm (cleanExpiredLocks 0
      (postLock (cleanExpiredLocks 0 initSeats) 0 (some "alice") 0).2) 0 (some "alice") 0).2 :=
    Reachable.confirmStep 0 (some "alice") 0
      (Reachable.lockStep 0 (some "alice") 0 Reachable.init)
  have hr := hclaim _ hreach ({ status := "booked" } : Seat) (by decide)
  exact absurd hr.2.1 (by decide)

/-- C2: when the expiry callback armed by Lock fires, it transitions the
seat to a bare available record (clearing holder, expiry and timer) only
if the seat is still locked and its (truthy) `lockExpiresAt` stamp is at
or before the current time; in every other case — confirmed, released,
unlocked or re-locked in the meantime — the callback leaves the table
completely unchanged, so a stale timer never clobbers a newer reservation
or booking. -/
theorem c2_expiry_callback_recheck (s : List Seat) (id now : Nat) (seat : Seat)
    (hs : s[id]? = some seat) :
    (∀ e, seat.status = "locked" → seat.lockExpiresAt = some e → 0 < e → e ≤ now →
      expiryCallback s id now = s.set id { status := "available" }) ∧
    (¬(seat.status = "locked" ∧ ∃ e, seat.lockExpiresAt = some e ∧ 0 < e ∧ e ≤ now) →
      expiryCallback s id now = s) := by
  constructor
  · intro e hst he hpos hle
    have hne : e ≠ 0 := Nat.pos_iff_ne_zero.1 hpos
    have hcond : (seat.status == "locked" && lockIsExpired seat now) = true := by
      simp [hst, lockIsExpired, he, hne, hle]
    simp [expiryCallback, hs, hcond]
  · intro hneg
    have hcond : (seat.status == "locked" && lockIsExpired seat now) = false := by
      by_cases hst : seat.status = "locked"
      · have hlie : lockIsExpired seat now = false := by
          unfold lockIsExpired
          cases he : seat.lockExpiresAt with
          | none => rfl
          | some e =>
            by_cases he0 : e = 0
            · simp [he0]
            · have hnle : ¬ e ≤ now := fun hle =>
                hneg ⟨hst, e, he, Nat.pos_of_ne_zero he0, hle⟩
              simp [he0, hnle]
        simp [hlie]
      · simp [hst]
    simp [expiryCallback, hs, hcond]

/-- Witness for the C2 theorem: a concrete locked seat whose stamp has
passed is reset by the callback. -/
theorem c2_expiry_callback_recheck_witness :
    expiryCallback [({ status := "locked", lockedBy := some "alice", lockExpiresAt := some 60000 } : Seat)] 0 60000 =
      [({ status := "locked", lockedBy := some "alice", lockExpiresAt := some 60000 } : Seat)].set 0 ({ status := "available" } : Seat) :=
  (c2_expiry_callback_recheck _ 0 60000 _ rfl).1 60000 rfl rfl (by decide) (by decide)

/-- C3: `POST /lock/:id` on an existing seat for a nonempty user `u`:
on an available seat it succeeds, leaving the locked record with holder
`u`, `lockExpiresAt = now + LOCK_TTL` and a fresh timer; on a locked seat
whose stamp has already passed it first lazily releases the seat as if
Expiry had occurred and then re-evaluates, so it succeeds with the same
result; on a locked, not-yet-expired seat it fails with `AlreadyLocked`
leaving the table unchanged; on a booked seat it fails with
`AlreadyBooked` leaving the table unchanged. -/
theorem c3_lock_transitions (s : List Seat) (id now : Nat) (u : String) (seat : Seat)
    (hs : s[id]? = some seat) (hu : u ≠ "") :
    (seat.status = "available" →
      postLock s id (some u) now = (.okMsg, s.set id (timerLockRec u now))) ∧
    (∀ e, seat.status = "locked" → seat.lockExpiresAt = some e → 0 < e → e ≤ now →
      postLock s id (some u) now = (.okMsg, s.set id (timerLockRec u now))) ∧
    (∀ e, seat.status = "locked" → seat.lockExpiresAt = some e → now < e →
      postLock s id (some u) now = (.errAlreadyLocked, s)) ∧
    (seat.status = "booked" → postLock s id (some u) now = (.errAlreadyBooked, s)) := by
  obtain ⟨hlt, -⟩ := List.getElem?_eq_some.1 hs
  have hq : queryUser (some u) = u := by simp [queryUser, hu]
  refine ⟨?_, ?_, ?_, ?_⟩
  · intro hav
    have hcond : (seat.status == "locked" && lockIsExpired seat now) = false := by
      simp [hav]
    have hget : (s.set id ({ status := "locked", lockedBy := some u, lockExpiresAt := some (now + LOCK_TTL) } : Seat))[id]? = some ({ status := "locked", lockedBy := some u, lockExpiresAt := some (now + LOCK_TTL) } : Seat) :=
      List.getElem?_set_self hlt
    simp only [postLock, hs, hq, hcond, Bool.false_eq_true, if_false, hav]
    simp [hav, armSeatExpiry, hget, List.set_set, timerLockRec, clearSeatTimer]
  · intro e hst he hpos hle
    have hne : e ≠ 0 := Nat.pos_iff_ne_zero.1 hpos
    have hcond : (seat.status == "locked" && lockIsExpired seat now) = true := by
      simp [hst, lockIsExpired, he, hne, hle]
    have hget : (s.set id ({ status := "locked", lockedBy := some u, lockExpiresAt := some (now + LOCK_TTL) } : Seat))[id]? = some ({ status := "locked", lockedBy := some u, lockExpiresAt := some (now + LOCK_TTL) } : Seat) :=
      List.getElem?_set_self hlt
    simp only [postLock, hs, hq, hcond, if_true]
    simp [armSeatExpiry, hget, List.set_set, timerLockRec, clearSeatTimer]
  · intro e hst he hgt
    have hnle : ¬ e ≤ now := Nat.not_le.2 hgt
    have hcond : (seat.status == "locked" && lockIsExpired seat now) = false := by
      simp [hst, lockIsExpired, he, hnle]
    simp only [postLock, hs, hq, hcond, Bool.false_eq_true, if_false]
    simp [hst]
  · intro hbk
    have hcond : (seat.status == "locked" && lockIsExpired seat now) = false := by
      simp [hbk]
    simp only [postLock, hs, hq, hcond, Bool.false_eq_true, if_false]
    simp [hbk]

/-- Witness for the C3 theorem: locking seat 0 of the startup table as
"alice" at time 5 succeeds and writes the locked record. -/
theorem c3_lock_transitions_witness :
    postLock initSeats 0 (some "alice") 5 = (.okMsg, initSeats.set 0 (timerLockRec "alice" 5)) :=
  (c3_lock_transitions initSeats 0 5 "alice"
    ({ id := some 1, status := "available" } : Seat) (by decide) (by decide)).1 rfl

/-- C5: failure cases of `POST /confirm/:id`, in the order the source
checks them: a seat that is not locked (including a booked one — booking
is terminal) fails with `NotLocked` and the table is unchanged; a locked
seat whose stamp has passed is reset to a bare available record (timer
handle cleared with it) and the request fails with `LockExpired`, a kind
distinct from `NotLocked`; a locked, unexpired seat held by someone other
than the calling user fails with `WrongHolder` and the table — hence the
original lock — is unchanged.  The expiry check precedes the holder
check. -/
theorem c5_confirm_failure_order (s : List Seat) (id now : Nat)
    (user : Option String) (seat : Seat) (hs : s[id]? = some seat) :
    (seat.status ≠ "locked" → postConfirm s id user now = (.errNotLocked, s)) ∧
    (∀ e, seat.status = "locked" → seat.lockExpiresAt = some e → 0 < e → e ≤ now →
      postConfirm s id user now = (.errLockExpired, s.set id { status := "available" })) ∧
    (∀ e, seat.status = "locked" → seat.lockExpiresAt = some e → now < e →
      seat.lockedBy ≠ some (queryUser user) →
      postConfirm s id user now = (.errWrongHolder, s)) ∧
    RegResult.errLockExpired ≠ RegResult.errNotLocked := by
  refine ⟨?_, ?_, ?_, by decide⟩
  · intro hnl
    simp [postConfirm, hs, hnl]
  · intro e hst he hpos hle
    have hne : e ≠ 0 := Nat.pos_iff_ne_zero.1 hpos
    simp [postConfirm, hs, hst, lockIsExpired, he, hne, hle]
  · intro e hst he hgt hlb
    have hnle : ¬ e ≤ now := Nat.not_le.2 hgt
    simp [postConfirm, hs, hst, lockIsExpired, he, hnle, hlb]

/-- Witness for the C5 theorem: confirming the untouched available seat 0
of the startup table fails with `NotLocked`. -/
theorem c5_confirm_failure_order_witness :
    postConfirm initSeats 0 (some "bob") 0 = (.errNotLocked, initSeats) :=
  (c5_confirm_failure_order initSeats 0 0 (some "bob")
    ({ id := some 1, status := "available" } : Seat) (by decide)).1 (by decide)

/-- Scanning past records whose `id` field does not match leaves them
untouched and forwards the result (`seats.find` takes the first match). -/
theorem apiConfirmGo_append (sid : Nat) (u : String) (now : Nat) (l₂ : List Seat) :
    ∀ l₁ : List Seat, (∀ r ∈ l₁, r.id ≠ some sid) →
      apiConfirmGo (l₁ ++ l₂) sid u now =
        ((apiConfirmGo l₂ sid u now).1, l₁ ++ (apiConfirmGo l₂ sid u now).2) := by
  intro l₁
  induction l₁ with
  | nil => intro _; simp
  | cons a t ih =>
    intro hmiss
    have ha : a.id ≠ some sid := hmiss a (List.mem_cons_self a t)
    have hbeq : (a.id == some sid) = false := by simp [ha]
    simp only [List.cons_append, apiConfirmGo, hbeq, Bool.false_eq_true, if_false,
      List.append_eq]
    rw [ih (fun r hr => hmiss r (List.mem_cons_of_mem a hr))]

/-- C4 (amended): a Confirm by the lock's holder on an unexpired lock
succeeds and books the seat, but the two confirm routes differ from the
claim: `POST /confirm/:id` clears `lockExpiresAt` and cancels the timer
yet resets the record to a bare `{ status: 'booked' }`, discarding the
holder instead of retaining it; `POST /api/seats/:id/confirm` retains the
caller as `bookedBy` (clearing the lock fields in place), but its records
carry no timer to cancel. -/
theorem c4_confirm_success_amended :
    (∀ (s : List Seat) (id now : Nat) (u : String) (seat : Seat) (e : Nat),
        s[id]? = some seat → seat.status = "locked" → seat.lockedBy = some u →
        u ≠ "" → seat.lockExpiresAt = some e → now < e →
        postConfirm s id (some u) now = (.okMsg, s.set id { status := "booked" })) ∧
    (∀ (l₁ l₂ : List Seat) (seat : Seat) (sid now t : Nat) (u : String),
        (∀ r ∈ l₁, r.id ≠ some sid) → seat.id = some sid → seat.status = "locked" →
        seat.lockedBy = some u → u ≠ "" → seat.lockedAt = some t →
        now - t ≤ LOCK_EXPIRATION_TIME →
        apiConfirm (l₁ ++ seat :: l₂) sid (some u) now =
          (.ok { seat with status := "booked", bookedBy := some u, lockedBy := none, lockedAt := none }, l₁ ++ { seat with status := "booked", bookedBy := some u, lockedBy := none, lockedAt := none } :: l₂)) := by
  constructor
  · intro s id now u seat e hs hst hlb hu he hlt
    have hq : queryUser (some u) = u := by simp [queryUser, hu]
    have hnle : ¬ e ≤ now := Nat.not_le.2 hlt
    simp [postConfirm, hs, hst, lockIsExpired, he, hnle, hq, hlb]
  · intro l₁ l₂ seat sid now t u hmiss hid hst hlb hu hat hfresh
    have hnst : ¬ LOCK_EXPIRATION_TIME < now - t := Nat.not_lt.2 hfresh
    simp only [apiConfirm]
    rw [if_neg hu]
    rw [apiConfirmGo_append sid u now (seat :: l₂) l₁ hmiss]
    simp [apiConfirmGo, hid, hst, hlb, lockedAtStale, hat, hnst]

/-- Witness for the C4 theorem: confirming a freshly locked seat books
it. -/
theorem c4_confirm_success_amended_witness :
    postConfirm [timerLockRec "alice" 0] 0 (some "alice") 0 =
      (.okMsg, [timerLockRec "alice" 0].set 0 ({ status := "booked" } : Seat)) :=
  c4_confirm_success_amended.1 [timerLockRec "alice" 0] 0 0 "alice"
    (timerLockRec "alice" 0) (0 + LOCK_TTL) rfl rfl rfl (by decide) rfl (by decide)

/-- C4 counterexample: the claim as stated is false on the code.  Locking
seat 0 as "alice" via `POST /lock/0` and then confirming via
`POST /confirm/0?user=alice` succeeds, but the resulting record is the
bare `{ status: 'booked' }`: the lock holder "alice" is not retained as
booking owner (neither `bookedBy` nor `lockedBy` is set). -/
theorem c4_timer_confirm_drops_holder_counterexample :
    (postConfirm (postLock initSeats 0 (some "alice") 0).2 0 (some "alice") 0).1 =
      RegResult.okMsg ∧
    ((postConfirm (postLock initSeats 0 (some "alice") 0).2 0 (some "alice") 0).2)[0]? =
      some ({ status := "booked" } : Seat) ∧
    ({ status := "booked" } : Seat).lockedBy = none ∧
    ({ status := "booked" } : Seat).bookedBy = none := by
  decide

/-- Scanning past non-matching records in the release handler. -/
theorem apiReleaseGo_append (sid : Nat) (u : String) (l₂ : List Seat) :
    ∀ l₁ : List Seat, (∀ r ∈ l₁, r.id ≠ some sid) →
      apiReleaseGo (l₁ ++ l₂) sid u =
        ((apiReleaseGo l₂ sid u).1, l₁ ++ (apiReleaseGo l₂ sid u).2) := by
  intro l₁
  induction l₁ with
  | nil => intro _; simp
  | cons a t ih =>
    intro hmiss
    have ha : a.id ≠ some sid := hmiss a (List.mem_cons_self a t)
    have hbeq : (a.id == some sid) = false := by simp [ha]
    simp only [List.cons_append, apiReleaseGo, hbeq, Bool.false_eq_true, if_false,
      List.append_eq]
    rw [ih (fun r hr => hmiss r (List.mem_cons_of_mem a hr))]

/-- C6: `POST /api/seats/:id/release` for a nonempty user `u` on the first
record whose `id` matches: not locked fails with `NotLocked` (table
unchanged); locked by a different holder fails with `WrongHolder`, leaving
the lock in place; locked by `u` succeeds, returning the updated record,
which is available with holder and both expiry fields cleared and (for the
`/api`-managed records, which never carry one) no pending timer. -/
theorem c6_release_behavior (l₁ l₂ : List Seat) (seat : Seat) (sid : Nat) (u : String)
    (hmiss : ∀ r ∈ l₁, r.id ≠ some sid) (hid : seat.id = some sid) (hu : u ≠ "") :
    (seat.status ≠ "locked" →
      apiRelease (l₁ ++ seat :: l₂) sid (some u) = (.errNotLocked, l₁ ++ seat :: l₂)) ∧
    (seat.status = "locked" → seat.lockedBy ≠ some u →
      apiRelease (l₁ ++ seat :: l₂) sid (some u) = (.errWrongHolder, l₁ ++ seat :: l₂)) ∧
    (seat.status = "locked" → seat.lockedBy = some u → seat.lockExpiresAt = none →
      seat.timeoutId = none →
      apiRelease (l₁ ++ seat :: l₂) sid (some u) =
        (.ok { seat with status := "available", lockedBy := none, lockedAt := none }, l₁ ++ { seat with status := "available", lockedBy := none, lockedAt := none } :: l₂) ∧
      ({ seat with status := "available", lockedBy := none, lockedAt := none } : Seat).lockedBy = none ∧
      ({ seat with status := "available", lockedBy := none, lockedAt := none } : Seat).lockedAt = none ∧
      ({ seat with status := "available", lockedBy := none, lockedAt := none } : Seat).lockExpiresAt = none ∧
      ({ seat with status := "available", lockedBy := none, lockedAt := none } : Seat).timeoutId = none) := by
  have hunf : ∀ res : RegResult × List Seat, apiReleaseGo (seat :: l₂) sid u = res →
      apiRelease (l₁ ++ seat :: l₂) sid (some u) = (res.1, l₁ ++ res.2) := by
    intro res hres
    simp only [apiRelease]
    rw [if_neg hu, apiReleaseGo_append sid u (seat :: l₂) l₁ hmiss, hres]
  refine ⟨?_, ?_, ?_⟩
  · intro hnl
    exact hunf (.errNotLocked, seat :: l₂) (by simp [apiReleaseGo, hid, hnl])
  · intro hst hlb
    exact hunf (.errWrongHolder, seat :: l₂) (by simp [apiReleaseGo, hid, hst, hlb])
  · intro hst hlb hexp htid
    refine ⟨hunf (.ok { seat with status := "available", lockedBy := none, lockedAt := none }, { seat with status := "available", lockedBy := none, lockedAt := none } :: l₂) (by simp [apiReleaseGo, hid, hst, hlb]), rfl, rfl, by simp [hexp], by simp [htid]⟩

/-- Witness for the C6 theorem: "alice" releasing her own /api lock on the
head seat succeeds and resets the record. -/
theorem c6_release_behavior_witness :
    apiRelease ([] ++ ({ id := some 1, status := "locked", lockedBy := some "alice", lockedAt := some 3 } : Seat) :: []) 1 (some "alice") =
      (.ok ({ id := some 1, status := "available" } : Seat), [] ++ ({ id := some 1, status := "available" } : Seat) :: []) ∧
    ({ id := some 1, status := "available" } : Seat).lockedBy = none ∧
    ({ id := some 1, status := "available" } : Seat).lockedAt = none ∧
    ({ id := some 1, status := "available" } : Seat).lockExpiresAt = none ∧
    ({ id := some 1, status := "available" } : Seat).timeoutId = none :=
  (c6_release_behavior [] [] ({ id := some 1, status := "locked", lockedBy := some "alice", lockedAt := some 3 } : Seat) 1 "alice"
    (by simp) rfl (by decide)).2.2 rfl rfl rfl rfl

/-- C7: `POST /unlock/:id` (administrative override, no holder check) on
an existing seat: on an available seat it succeeds as a no-op, reporting
it already available and changing nothing; on a booked seat it fails with
`Immutable` and changes nothing; on a locked seat it succeeds, clearing
the timer and resetting the record to a bare available one (holder and
expiry cleared). -/
theorem c7_unlock_behavior (s : List Seat) (id : Nat) (seat : Seat)
    (hs : s[id]? = some seat) :
    (seat.status = "available" → postUnlock s id = (.okAlreadyAvailable, s)) ∧
    (seat.status = "booked" → postUnlock s id = (.errImmutable, s)) ∧
    (seat.status = "locked" →
      postUnlock s id = (.okMsg, s.set id { status := "available" })) := by
  refine ⟨?_, ?_, ?_⟩
  · intro hav; simp [postUnlock, hs, hav]
  · intro hbk; simp [postUnlock, hs, hbk]
  · intro hst; simp [postUnlock, hs, hst]

/-- Witness for the C7 theorem: unlocking a locked seat resets it. -/
theorem c7_unlock_behavior_witness :
    postUnlock [timerLockRec "alice" 0] 0 =
      (.okMsg, [timerLockRec "alice" 0].set 0 ({ status := "available" } : Seat)) :=
  (c7_unlock_behavior [timerLockRec "alice" 0] 0 (timerLockRec "alice" 0) rfl).2.2 rfl

/-- C8 (amended): after the `cleanExpiredLocks` middleware runs, no record
that still carries a stale `lockedAt` (more than `LOCK_EXPIRATION_TIME` in
the past) is reported as locked — so `GET /api/seats`, whose pipeline is
middleware-then-snapshot, never shows an `/api`-style lock past its
deadline.  The `GET /seats` view performs no `lockExpiresAt`-based
normalization, so a timer lock can still be shown as locked past its
deadline (see the counterexample). -/
theorem c8_api_view_normalized (now : Nat) (s : List Seat) :
    ∀ r ∈ cleanExpiredLocks now s, ∀ t, r.lockedAt = some t →
      LOCK_EXPIRATION_TIME < now - t → r.status ≠ "locked" := by
  intro r hr t hat hstale
  rcases List.mem_map.1 hr with ⟨r0, hr0, rfl⟩
  intro hst
  unfold sweepSeat at hat hst
  by_cases hc : (r0.status == "locked" && lockedAtStale r0 now) = true
  · rw [if_pos hc] at hst
    simp at hst
  · rw [if_neg hc] at hat hst
    exact hc (by simp [hst, lockedAtStale, hat, hstale])

/-- Witness for the C8 theorem: a record with a stale `lockedAt` surviving
the sweep is not locked. -/
theorem c8_api_view_normalized_witness :
    ({ status := "available", lockedAt := some 0 } : Seat).status ≠ "locked" :=
  c8_api_view_normalized 60001 [({ status := "available", lockedAt := some 0 } : Seat)]
    ({ status := "available", lockedAt := some 0 } : Seat) (by decide) 0 rfl (by decide)

/-- C8 counterexample: the claim as stated is false for `GET /seats`.
Lock seat 0 as "alice" at time 0 (stamp `lockExpiresAt = 60000`); query at
time 60001, after the deadline has passed but before the timer callback
(scheduled at `LOCK_TTL + 50`) fires: the middleware does not touch the
record (it has no `lockedAt`), and the snapshot still reports the seat as
"locked". -/
theorem c8_stale_timer_lock_visible_counterexample :
    ((cleanExpiredLocks 60001 (postLock (cleanExpiredLocks 0 initSeats) 0 (some "alice") 0).2))[0]? = some (timerLockRec "alice" 0) ∧
    (timerLockRec "alice" 0).lockExpiresAt = some 60000 ∧ 60000 ≤ 60001 ∧
    (getSeatsView (cleanExpiredLocks 60001 (postLock (cleanExpiredLocks 0 initSeats) 0 (some "alice") 0).2))[0]? = some "locked" := by
  decide

/-- Scanning past non-matching records in the `/api` lock handler. -/
theorem apiLockGo_notFound (sid : Nat) (u : String) (now : Nat) :
    ∀ l : List Seat, (∀ r ∈ l, r.id ≠ some sid) →
      apiLockGo l sid u now = (.errNotFound, l) := by
  intro l
  induction l with
  | nil => intro _; rfl
  | cons a t ih =>
    intro hmiss
    have hbeq : (a.id == some sid) = false := by
      simp [hmiss a (List.mem_cons_self a t)]
    simp only [apiLockGo, hbeq, Bool.false_eq_true, if_false]
    rw [ih (fun r hr => hmiss r (List.mem_cons_of_mem a hr))]

/-- No matching record means the `/api` confirm handler reports 404. -/
theorem apiConfirmGo_notFound (sid : Nat) (u : String) (now : Nat) :
    ∀ l : List Seat, (∀ r ∈ l, r.id ≠ some sid) →
      apiConfirmGo l sid u now = (.errNotFound, l) := by
  intro l
  induction l with
  | nil => intro _; rfl
  | cons a t ih =>
    intro hmiss
    have hbeq : (a.id == some sid) = false := by
      simp [hmiss a (List.mem_cons_self a t)]
    simp only [apiConfirmGo, hbeq, Bool.false_eq_true, if_false]
    rw [ih (fun r hr => hmiss r (List.mem_cons_of_mem a hr))]

/-- No matching record means the `/api` release handler reports 404. -/
theorem apiReleaseGo_notFound (sid : Nat) (u : String) :
    ∀ l : List Seat, (∀ r ∈ l, r.id ≠ some sid) →
      apiReleaseGo l sid u = (.errNotFound, l) := by
  intro l
  induction l with
  | nil => intro _; rfl
  | cons a t ih =>
    intro hmiss
    have hbeq : (a.id == some sid) = false := by
      simp [hmiss a (List.mem_cons_self a t)]
    simp only [apiReleaseGo, hbeq, Bool.false_eq_true, if_false]
    rw [ih (fun r hr => hmiss r (List.mem_cons_of_mem a hr))]

/-- C9 (amended): the `/api` handlers (lock, confirm, release) fail with
`InvalidIdentity` on a missing or empty caller identity, and every handler
of both families fails with `NotFound` when the seat id does not resolve;
but the timer-based lock and confirm do not validate identity — they
substitute the literal `"anonymous"` for a missing or empty user. -/
theorem c9_validation_amended :
    (∀ (s : List Seat) (sid now : Nat),
      apiLock s sid none now = (.errInvalidIdentity, s) ∧
      apiLock s sid (some "") now = (.errInvalidIdentity, s) ∧
      apiConfirm s sid none now = (.errInvalidIdentity, s) ∧
      apiConfirm s sid (some "") now = (.errInvalidIdentity, s) ∧
      apiRelease s sid none = (.errInvalidIdentity, s) ∧
      apiRelease s sid (some "") = (.errInvalidIdentity, s)) ∧
    (∀ (s : List Seat) (id now : Nat) (user : Option String), s[id]? = none →
      postLock s id user now = (.errNotFound, s) ∧
      postConfirm s id user now = (.errNotFound, s) ∧
      postUnlock s id = (.errNotFound, s)) ∧
    (∀ (l : List Seat) (sid now : Nat) (u : String), u ≠ "" →
      (∀ r ∈ l, r.id ≠ some sid) →
      apiLock l sid (some u) now = (.errNotFound, l) ∧
      apiConfirm l sid (some u) now = (.errNotFound, l) ∧
      apiRelease l sid (some u) = (.errNotFound, l)) ∧
    (queryUser none = "anonymous" ∧ queryUser (some "") = "anonymous") := by
  refine ⟨?_, ?_, ?_, rfl, by simp [queryUser]⟩
  · intro s sid now
    exact ⟨rfl, by simp [apiLock], rfl, by simp [apiConfirm], rfl, by simp [apiRelease]⟩
  · intro s id now user hs
    exact ⟨by simp [postLock, hs], by simp [postConfirm, hs], by simp [postUnlock, hs]⟩
  · intro l sid now u hu hmiss
    refine ⟨?_, ?_, ?_⟩
    · simp only [apiLock]
      rw [if_neg hu, apiLockGo_notFound sid u now l hmiss]
    · simp only [apiConfirm]
      rw [if_neg hu, apiConfirmGo_notFound sid u now l hmiss]
    · simp only [apiRelease]
      rw [if_neg hu, apiReleaseGo_notFound sid u l hmiss]

/-- Witness for the C9 theorem: the `/api` lock handler rejects a missing
identity on the startup table. -/
theorem c9_validation_amended_witness :
    apiLock initSeats 1 none 0 = (.errInvalidIdentity, initSeats) :=
  (c9_validation_amended.1 initSeats 1 0).1

/-- C9 counterexample: the claim as stated is false on the code.  A
`POST /lock/0` with no user parameter — a missing identity — does not fail
with `InvalidIdentity`: it succeeds and locks the seat for the literal
holder "anonymous". -/
theorem c9_timer_lock_accepts_missing_identity_counterexample :
    (postLock initSeats 0 none 0).1 = RegResult.okMsg ∧
    (postLock initSeats 0 none 0).1 ≠ RegResult.errInvalidIdentity ∧
    ((postLock initSeats 0 none 0).2)[0]? = some (timerLockRec "anonymous" 0) := by
  decide

/-- A falsy (missing or empty) user parameter maps to "anonymous". -/
theorem queryUser_of_falsy {user : Option String} (h : truthyStr user = false) :
    queryUser user = "anonymous" := by
  cases user with
  | none => rfl
  | some v =>
    have hv : v = "" := by simpa [truthyStr] using h
    simp [queryUser, hv]

/-- C10: in the timer-based endpoints a Lock or Confirm request whose user
parameter is absent or empty is assigned the literal identity "anonymous"
instead of being rejected; consequently, on an available seat, a Lock with
one falsy identity followed (before the TTL elapses) by a Confirm with any
other falsy identity — not necessarily the same caller — succeeds and
books the seat, because both requests map to the same holder
"anonymous". -/
theorem c10_anonymous_lock_and_confirm (s : List Seat) (id : Nat) (seat : Seat)
    (now later : Nat) (u1 u2 : Option String) (hs : s[id]? = some seat)
    (hav : seat.status = "available") (h1 : truthyStr u1 = false)
    (h2 : truthyStr u2 = false) (hlate : later < now + LOCK_TTL) :
    queryUser u1 = "anonymous" ∧ queryUser u2 = "anonymous" ∧
    postLock s id u1 now = (.okMsg, s.set id (timerLockRec "anonymous" now)) ∧
    postConfirm (s.set id (timerLockRec "anonymous" now)) id u2 later =
      (.okMsg, s.set id ({ status := "booked" } : Seat)) := by
  obtain ⟨hlt, -⟩ := List.getElem?_eq_some.1 hs
  have hq1 := queryUser_of_falsy h1
  have hq2 := queryUser_of_falsy h2
  refine ⟨hq1, hq2, ?_, ?_⟩
  · have hcond : (seat.status == "locked" && lockIsExpired seat now) = false := by
      simp [hav]
    have hget : (s.set id ({ status := "locked", lockedBy := some "anonymous", lockExpiresAt := some (now + LOCK_TTL) } : Seat))[id]? = some ({ status := "locked", lockedBy := some "anonymous", lockExpiresAt := some (now + LOCK_TTL) } : Seat) :=
      List.getElem?_set_self hlt
    simp only [postLock, hs, hq1, hcond, Bool.false_eq_true, if_false, hav]
    simp [hav, armSeatExpiry, hget, List.set_set, timerLockRec, clearSeatTimer]
  · have hget2 : (s.set id (timerLockRec "anonymous" now))[id]? =
        some (timerLockRec "anonymous" now) := List.getElem?_set_self hlt
    have hnle : ¬ now + LOCK_TTL ≤ later := Nat.not_le.2 hlate
    simp only [timerLockRec] at hget2
    simp [postConfirm, hget2, timerLockRec, lockIsExpired, hnle, hq2, List.set_set]

/-- Witness for the C10 theorem: an anonymous lock-then-confirm on seat 0
of the startup table books it. -/
theorem c10_anonymous_lock_and_confirm_witness :
    queryUser none = "anonymous" ∧ queryUser (some "") = "anonymous" ∧
    postLock initSeats 0 none 0 = (.okMsg, initSeats.set 0 (timerLockRec "anonymous" 0)) ∧
    postConfirm (initSeats.set 0 (timerLockRec "anonymous" 0)) 0 (some "") 0 =
      (.okMsg, initSeats.set 0 ({ status := "booked" } : Seat)) :=
  c10_anonymous_lock_and_confirm initSeats 0 ({ id := some 1, status := "available" } : Seat)
    0 0 none (some "") (by decide) rfl rfl rfl (by decide)
